import Mathlib

/-!
# Verification of the World Bank infographic script (`23010599.py`)

Shallow embedding of the data-loading and selection layer of the script:

* `read_world_bank_data` (source lines 16–55): parses a CSV (modelled as an
  already-tokenised `RawFrame`), selects the `"Country Name"` column plus the
  year columns `"1990"`–`"2022"`, sets the country names as the row index and
  returns the pair `(df.T, df)`.
* the pandas `df.loc[key_list, col]` selection used by `create_pie_chart`
  (line 83) and `bar_plot` (line 195), modelled by `locList`.
* the percentage-of-total annotation arithmetic of `bar_plot`
  (lines 204–212), modelled by `bar_plot_percentages`.

Modelling conventions:

* a CSV cell is `Cell.na` (missing / NaN), `Cell.str` (text) or `Cell.num`
  (a numeric value, modelled as `ℚ`);
* pandas row/column labels are `Cell`s (a pandas index can hold NaN, which is
  how rows without a country name are keyed);
* a missing or non-numeric measurement inside the table body is `none`;
* IEEE division is modelled by `fdiv`, where `none` stands for the
  non-finite outcome (`inf`/`nan`) of dividing by zero — Python floats do not
  raise on division by zero, they silently produce a non-finite value;
* `'{:.1f}'.format` / `.round(2)` round half-to-even, modelled by `rnd`;
* raw column headers are assumed pairwise distinct (true of World Bank CSV
  files); label lookup takes the first matching position.
-/

/-- A parsed CSV cell: missing (NaN), a string, or a numeric value. -/
inductive Cell where
  | na : Cell
  | str : String → Cell
  | num : ℚ → Cell
deriving DecidableEq

/-- The raw CSV as handed back by `pd.read_csv(filename, skiprows=4)`:
a header row of column names and the data rows (each aligned with the
header). -/
structure RawFrame where
  cols : List String
  rows : List (List Cell)
deriving DecidableEq

/-- A pandas DataFrame over numeric data: row-index labels, column labels and
the rectangular body.  Missing values are `none`. -/
structure DataFrame where
  rows : List Cell
  cols : List Cell
  data : List (List (Option ℚ))
deriving DecidableEq

/-- Position of the first occurrence of `k` in `l` (`l.length` if absent),
as used by pandas label lookup on a uniquely-labelled axis. -/
def firstIdx {α : Type} [DecidableEq α] : List α → α → Nat
  | [], _ => 0
  | a :: t, k => if a = k then 0 else firstIdx t k + 1

/-- Numeric content of a cell: `Cell.num q` gives `some q`, everything else
is treated as absent. -/
def cellNum : Cell → Option ℚ
  | Cell.num q => some q
  | _ => none

/-- `df.loc[:, names]` on the raw frame: keep exactly the columns `names`,
in that order; `KeyError` (= `none`) if any requested column is missing. -/
def selectCols (rf : RawFrame) (names : List String) : Option (List (List Cell)) :=
  if ∀ n ∈ names, n ∈ rf.cols then
    some (rf.rows.map (fun r => names.map (fun n => r.getD (firstIdx rf.cols n) Cell.na)))
  else none

/-- `df.dropna(axis=1)`: drop every column that contains at least one
missing value.  In the script the result of this call is discarded. -/
def dropna_axis1 (rf : RawFrame) : RawFrame :=
  let keep := (List.range rf.cols.length).filter
    (fun j => rf.rows.all (fun r => decide (r.getD j Cell.na ≠ Cell.na)))
  ⟨keep.map (fun j => rf.cols.getD j ""),
   rf.rows.map (fun r => keep.map (fun j => r.getD j Cell.na))⟩

/-- Transpose of a rectangular body with `nc` columns: row `j` of the result
collects entry `j` of every input row. -/
def Tmat (nc : Nat) (data : List (List (Option ℚ))) : List (List (Option ℚ)) :=
  (List.range nc).map (fun j => data.map (fun row => row.getD j none))

/-- `df.T`: swap the row and column labels and transpose the body. -/
def transposeDF (df : DataFrame) : DataFrame :=
  ⟨df.cols, df.rows, Tmat df.cols.length df.data⟩

/-- `df.loc[r, c]` for single labels: the value stored at row label `r`,
column label `c` (first occurrences). -/
def cell (df : DataFrame) (r c : Cell) : Option ℚ :=
  (df.data.getD (firstIdx df.rows r) []).getD (firstIdx df.cols c) none

/-- The year labels `"1990"`, …, `"2022"` selected by the loader
(source lines 40–43). -/
def yearStrs : List String :=
  (List.range (2022 - 1990 + 1)).map (fun i => toString (1990 + i))

/-- `all_cols_list` of the source (lines 42–43): `"Country Name"` followed by
the year columns. -/
def all_cols_list : List String := "Country Name" :: yearStrs

/-- The year labels as column `Cell`s. -/
def yearCells : List Cell := yearStrs.map Cell.str

/-- `read_world_bank_data` (source lines 16–55): select the name and year
columns, set `"Country Name"` as the index and drop that column, and return
`(df.T, df)`.  Line 46 (`df.dropna(axis=1)`) is evaluated but its result is
discarded, exactly as in the source. -/
def read_world_bank_data (raw : RawFrame) : Option (DataFrame × DataFrame) :=
  let _ := dropna_axis1 raw
  match selectCols raw all_cols_list with
  | none => none
  | some sel =>
    let labels := sel.map (fun r => r.headD Cell.na)
    let data := sel.map (fun r => r.tail.map cellNum)
    let dfC : DataFrame := ⟨labels, yearCells, data⟩
    some (transposeDF dfC, dfC)

/-- `df.loc[keys, c]` with a list of row labels and one column label, as in
`create_pie_chart` (line 83) and `bar_plot` (line 195): pandas raises a
`KeyError` (= `none`) when any requested label is missing, otherwise it
returns, for each key in caller order, the value of every row whose label
matches that key (one row per key when the index is duplicate-free). -/
def locList (df : DataFrame) (keys : List Cell) (c : Cell) : Option (List (Option ℚ)) :=
  if (∀ k ∈ keys, k ∈ df.rows) ∧ c ∈ df.cols then
    some (keys.flatMap (fun k =>
      (((List.range df.rows.length).filter
          (fun i => decide (df.rows.getD i Cell.na = k))).map
        (fun i => (df.data.getD i []).getD (firstIdx df.cols c) none))))
  else none

/-- Rounding to the nearest integer, ties to even: the rounding used by
Python's `'{:.1f}'.format` and by numpy/pandas `.round`. -/
def rnd (x : ℚ) : ℤ :=
  if x - x.floor = 1 / 2 then (if x.floor % 2 = 0 then x.floor else x.floor + 1)
  else (x + 1 / 2).floor

/-- Rounding to one decimal place (`'{:.1f}'.format`, line 209). -/
def round1 (q : ℚ) : ℚ := (rnd (q * 10) : ℚ) / 10

/-- Rounding to two decimal places (`.round(2)`, line 83). -/
def round2 (q : ℚ) : ℚ := (rnd (q * 100) : ℚ) / 100

/-- Float division: Python floats do not raise on a zero divisor, they
produce a non-finite value (`inf` or `nan`), modelled as `none`. -/
def fdiv (a b : ℚ) : Option ℚ := if b = 0 then none else some (a / b)

/-- The annotation arithmetic of `bar_plot` (lines 204–212): for each plotted
value, `(p.get_width() / total) * 100` formatted with `'{:.1f}%'`, where
`total` is the sum of the slice.  Entry `none` is a non-finite percentage
(the formatted text would read `nan%` or `inf%`). -/
def bar_plot_percentages (vals : List ℚ) : List (Option ℚ) :=
  vals.map (fun v => (fdiv v vals.sum).map (fun q => round1 (q * 100)))

/-- The country list of `create_pie_chart` (lines 77–79). -/
def pie_countries : List Cell :=
  [Cell.str "Ireland", Cell.str "Australia", Cell.str "Singapore",
   Cell.str "Afghanistan", Cell.str "Angola", Cell.str "South Africa",
   Cell.str "Canada", Cell.str "Bangladesh", Cell.str "Algeria",
   Cell.str "Somalia", Cell.str "Nigeria"]

/-- The data selection of `create_pie_chart` (line 83):
`df.loc[countries, "2022"].round(2)`. -/
def pie_chart_values (df : DataFrame) : Option (List (Option ℚ)) :=
  (locList df pie_countries (Cell.str "2022")).map (fun l => l.map (Option.map round2))

/-- The country list of `bar_plot` (lines 190–192). -/
def bar_countries : List Cell :=
  [Cell.str "South Africa", Cell.str "Djibouti", Cell.str "Eswatini",
   Cell.str "Congo, Rep.", Cell.str "Gabon", Cell.str "Namibia",
   Cell.str "Libya", Cell.str "Botswana", Cell.str "Somalia",
   Cell.str "Sudan"]

/-- The data selection of `bar_plot` (line 195): `df.loc[country_list, "2022"]`
(the subsequent `reset_index` only renames, the values are unchanged). -/
def bar_plot_values (df : DataFrame) : Option (List (Option ℚ)) :=
  locList df bar_countries (Cell.str "2022")

/-! ### Concrete frames used as witnesses and counterexamples -/

/-- A well-formed raw file: metadata columns around the name column, the full
1990–2022 year range, and one extra column that the loader must discard. -/
def rawEx : RawFrame :=
  ⟨["Country Code", "Country Name"] ++ yearStrs ++ ["Extra"],
   [Cell.str "AAA" :: Cell.str "Alpha" ::
      ((List.range 33).map (fun i => Cell.num i) ++ [Cell.na]),
    Cell.str "BBB" :: Cell.str "Beta" ::
      ((List.range 33).map (fun i => Cell.num (i + 100)) ++ [Cell.num 7])]⟩

/-- The empty DataFrame, used as a `getD` default. -/
def dfDefault : DataFrame := ⟨[], [], []⟩

/-- The pair of views the loader builds from `rawEx`. -/
def exPair : DataFrame × DataFrame :=
  (read_world_bank_data rawEx).getD (dfDefault, dfDefault)

/-- A raw file whose second data row has no entity name (`Cell.na` in the
`"Country Name"` column) and no yearly values at all. -/
def rawNA : RawFrame :=
  ⟨"Country Name" :: yearStrs,
   [Cell.str "Alpha" :: (List.range 33).map (fun _ => Cell.num 1),
    Cell.na :: (List.range 33).map (fun _ => Cell.na)]⟩

/-- The pair of views the loader builds from `rawNA`. -/
def naPair : DataFrame × DataFrame :=
  (read_world_bank_data rawNA).getD (dfDefault, dfDefault)

/-- A raw file in which the entity name `"Alpha"` occurs twice. -/
def rawDup : RawFrame :=
  ⟨"Country Name" :: yearStrs,
   [Cell.str "Alpha" :: (List.range 33).map (fun _ => Cell.num 1),
    Cell.str "Alpha" :: (List.range 33).map (fun _ => Cell.num 2)]⟩

/-- The pair of views the loader builds from `rawDup`. -/
def dupPair : DataFrame × DataFrame :=
  (read_world_bank_data rawDup).getD (dfDefault, dfDefault)

/-- A tiny entity-indexed table whose internal row order (`"B"` before
`"A"`) differs from the key order used by selections. -/
def dfBA : DataFrame :=
  ⟨[Cell.str "B", Cell.str "A"], [Cell.str "2022"], [[some 2], [some 1]]⟩

/-- A one-entity table containing only `"A"`, as in the spec's synthetic
missing-key test. -/
def dfOnlyA : DataFrame :=
  ⟨[Cell.str "A"], [Cell.str "2022"], [[some 1]]⟩

/-- `Rat.floor` agrees with the floor of the `FloorRing` structure on `ℚ`. -/
theorem ratFloor_eq (q : ℚ) : q.floor = ⌊q⌋ := by
  rw [Rat.floor_def, Rat.floor_def']

example : firstIdx ["a", "b", "c"] "b" = 1 := by decide

example : rnd (5 / 2) = 2 := by norm_num [rnd, ratFloor_eq]

example : rnd (7 / 2) = 4 := by norm_num [rnd, ratFloor_eq]

example : rnd (7 / 3) = 2 := by norm_num [rnd, ratFloor_eq]

example : round1 (123 / 40) = 31 / 10 := by norm_num [round1, rnd, ratFloor_eq]

example : bar_plot_percentages [10, 20, 70] = [some 10, some 20, some 70] := by
  norm_num [bar_plot_percentages, fdiv, round1, rnd, ratFloor_eq]

example : bar_plot_percentages [0] = [none] := by
  norm_num [bar_plot_percentages, fdiv]

example :
    locList ⟨[Cell.str "B", Cell.str "A"], [Cell.str "2022"], [[some 2], [some 1]]⟩
      [Cell.str "A", Cell.str "B"] (Cell.str "2022") = some [some 1, some 2] := by
  decide

/-! ### List helper lemmas -/

/-- `getD` after `map`, with matching defaults; holds also out of range. -/
theorem getD_map_all {α β : Type} (f : α → β) (d : α) :
    ∀ (l : List α) (i : Nat), (l.map f).getD i (f d) = f (l.getD i d)
  | [], _ => rfl
  | _ :: _, 0 => rfl
  | _ :: t, i + 1 => getD_map_all f d t i

/-- `getD` past the end of the list gives the default. -/
theorem getD_ge {α : Type} (d : α) :
    ∀ (l : List α) (i : Nat), l.length ≤ i → l.getD i d = d
  | [], _, _ => rfl
  | _ :: _, 0, h => absurd h (by simp)
  | _ :: t, i + 1, h => getD_ge d t i (Nat.le_of_succ_le_succ h)

/-- Reading every position of a list back in order reconstructs it. -/
theorem map_getD_range {α : Type} (d : α) :
    ∀ l : List α, (List.range l.length).map (fun j => l.getD j d) = l := by
  intro l
  induction l with
  | nil => rfl
  | cons a t ih =>
    rw [List.length_cons, List.range_succ_eq_map, List.map_cons, List.map_map]
    exact congrArg (a :: ·) ih

/-! ### Transpose lemmas -/

theorem Tmat_length (nc : Nat) (data : List (List (Option ℚ))) :
    (Tmat nc data).length = nc := by
  simp [Tmat]

/-- Row `j` of the transpose collects entry `j` of every row. -/
theorem Tmat_getD (nc : Nat) (data : List (List (Option ℚ))) (j : Nat)
    (hj : j < nc) :
    (Tmat nc data).getD j [] = data.map (fun row => row.getD j none) := by
  unfold Tmat
  rw [List.getD_eq_getElem _ _ (by simpa using hj)]
  rw [List.getElem_map, List.getElem_range]

/-- Entry `(j, i)` of the transpose is entry `(i, j)` of a body whose rows
all have length `nc`. -/
theorem Tmat_entry (nc : Nat) (data : List (List (Option ℚ)))
    (hrow : ∀ r ∈ data, r.length = nc) (i j : Nat) :
    ((Tmat nc data).getD j []).getD i none = (data.getD i []).getD j none := by
  by_cases hj : j < nc
  · rw [Tmat_getD nc data j hj]
    exact getD_map_all (fun row => row.getD j none) [] data i
  · rw [getD_ge [] _ j (by rw [Tmat_length]; omega)]
    have hleft : ([] : List (Option ℚ)).getD i none = none := by simp
    rw [hleft]
    by_cases hi : i < data.length
    · rw [List.getD_eq_getElem data [] hi]
      exact (getD_ge none _ j (by rw [hrow _ (List.getElem_mem hi)]; omega)).symm
    · rw [getD_ge [] data i (by omega)]
      simp

/-- Transposing twice gives the body back (for a rectangular body). -/
theorem Tmat_Tmat (nc : Nat) (data : List (List (Option ℚ)))
    (hrow : ∀ r ∈ data, r.length = nc) :
    Tmat data.length (Tmat nc data) = data := by
  apply List.ext_getElem
  · simp [Tmat]
  · intro i hi hid
    rw [Tmat_length] at hi
    unfold Tmat
    rw [List.getElem_map, List.getElem_range, List.map_map]
    calc ((List.range nc).map fun j => (data.map fun row => row.getD j none).getD i none)
        = (List.range nc).map fun j => data[i].getD j none := by
          apply List.map_congr_left
          intro j _
          have h := getD_map_all (fun row => row.getD j none) [] data i
          have hnil : ([] : List (Option ℚ)).getD j none = none := by simp
          rw [hnil] at h
          rw [h, List.getD_eq_getElem data [] hid]
      _ = data[i] := by
          have hlen : data[i].length = nc := hrow _ (List.getElem_mem hid)
          rw [← hlen]
          exact map_getD_range none _

example :
    selectCols ⟨["x", "y"], [[Cell.num 1, Cell.num 2]]⟩ ["y"] =
      some [[Cell.num 2]] := by decide

example : Tmat 2 [[some 1, some 2], [some 3, some 4]] =
    [[some 1, some 3], [some 2, some 4]] := by decide

/-! ### DataFrame-level lemmas -/

/-- Transposing a single cell: for a rectangular body, the value of
`df.T` at `[c, r]` is the value of `df` at `[r, c]`. -/
theorem cell_transposeDF (df : DataFrame)
    (h2 : ∀ r ∈ df.data, r.length = df.cols.length) (r c : Cell) :
    cell (transposeDF df) c r = cell df r c := by
  unfold cell transposeDF
  exact Tmat_entry df.cols.length df.data h2 (firstIdx df.rows r) (firstIdx df.cols c)

/-- Transposing twice is the identity on well-formed frames. -/
theorem transposeDF_transposeDF (df : DataFrame)
    (h1 : df.data.length = df.rows.length)
    (h2 : ∀ r ∈ df.data, r.length = df.cols.length) :
    transposeDF (transposeDF df) = df := by
  obtain ⟨rows, cols, data⟩ := df
  simp only [transposeDF] at *
  rw [← h1, Tmat_Tmat cols.length data h2]

/-! ### Shape of the loader's output -/

/-- Unfolding `read_world_bank_data`: when it succeeds, the entity-indexed
view keeps one row per raw data row (keyed by the raw `"Country Name"`
cell), its columns are the year labels, its body holds the numeric content
of the year cells, and the year view is the transpose; success implies all
requested columns were present. -/
theorem read_eq_some (raw : RawFrame) (dfY dfC : DataFrame)
    (h : read_world_bank_data raw = some (dfY, dfC)) :
    dfY = transposeDF dfC ∧
    dfC.rows = raw.rows.map
      (fun r => r.getD (firstIdx raw.cols "Country Name") Cell.na) ∧
    dfC.cols = yearCells ∧
    dfC.data = raw.rows.map
      (fun r => yearStrs.map
        (fun n => cellNum (r.getD (firstIdx raw.cols n) Cell.na))) ∧
    (∀ n ∈ all_cols_list, n ∈ raw.cols) := by
  unfold read_world_bank_data selectCols at h
  by_cases hp : ∀ n ∈ all_cols_list, n ∈ raw.cols
  · rw [if_pos hp] at h
    simp only [all_cols_list, List.map_map, List.map_cons, List.headD_cons,
      List.tail_cons, Option.some.injEq, Prod.mk.injEq] at h
    obtain ⟨hY, hC⟩ := h
    subst hC
    subst hY
    refine ⟨rfl, ?_, rfl, ?_, hp⟩
    · simp [Function.comp]
    · simp [Function.comp, List.map_map]
  · rw [if_neg hp] at h
    exact absurd h (by simp)

/-- The loader's entity-indexed view is well-formed: one body row per
index label, each of the width of the column labels. -/
theorem read_wf (raw : RawFrame) (dfY dfC : DataFrame)
    (h : read_world_bank_data raw = some (dfY, dfC)) :
    dfC.data.length = dfC.rows.length ∧
    ∀ r ∈ dfC.data, r.length = dfC.cols.length := by
  obtain ⟨-, hrows, hcols, hdata, -⟩ := read_eq_some raw dfY dfC h
  constructor
  · rw [hrows, hdata]
    simp
  · intro r hr
    rw [hdata] at hr
    rw [List.mem_map] at hr
    obtain ⟨rr, -, hrr⟩ := hr
    rw [← hrr, hcols]
    simp [yearCells]

/-! ### Claims -/

/-- C1: for every input file accepted by `read_world_bank_data`, the two
returned tables are exact transposes of each other: the value at
`[entity, year]` in the entity-indexed view equals the value at
`[year, entity]` in the year-indexed view, and transposing the year-indexed
view reproduces the entity-indexed view exactly. -/
theorem views_are_exact_transposes (raw : RawFrame) (dfY dfC : DataFrame)
    (h : read_world_bank_data raw = some (dfY, dfC)) :
    (∀ e ∈ dfC.rows, ∀ y ∈ dfC.cols, cell dfC e y = cell dfY y e) ∧
    transposeDF dfY = dfC := by
  obtain ⟨h1, h2⟩ := read_wf raw dfY dfC h
  obtain ⟨hY, -, -, -, -⟩ := read_eq_some raw dfY dfC h
  subst hY
  constructor
  · intro e _ y _
    exact (cell_transposeDF dfC h2 e y).symm
  · exact transposeDF_transposeDF dfC h1 h2

/-- Witness for C1 at the concrete file `rawEx`. -/
theorem views_are_exact_transposes_witness :
    cell exPair.2 (Cell.str "Alpha") (Cell.str "2022") =
      cell exPair.1 (Cell.str "2022") (Cell.str "Alpha") ∧
    transposeDF exPair.1 = exPair.2 := by
  have h : read_world_bank_data rawEx = some (exPair.1, exPair.2) := rfl
  have hc := views_are_exact_transposes rawEx exPair.1 exPair.2 h
  exact ⟨hc.1 _ (by decide) _ (by decide), hc.2⟩

/-! ### Label lookup lemmas -/

theorem getD_firstIdx {α : Type} [DecidableEq α] (d : α) :
    ∀ (l : List α) (k : α), k ∈ l → l.getD (firstIdx l k) d = k := by
  intro l
  induction l with
  | nil => intro k hk; cases hk
  | cons a t ih =>
    intro k hk
    by_cases ha : a = k
    · simp [firstIdx, ha]
    · have hkt : k ∈ t := by
        cases hk with
        | head => exact absurd rfl ha
        | tail _ h => exact h
      simp only [firstIdx, if_neg ha]
      exact ih k hkt

/-- On a duplicate-free index, the positions whose label is `k` are exactly
the first occurrence of `k`. -/
theorem filter_range_eq_singleton {α : Type} [DecidableEq α] (d : α) :
    ∀ (l : List α) (k : α), l.Nodup → k ∈ l →
      (List.range l.length).filter (fun i => decide (l.getD i d = k)) =
        [firstIdx l k] := by
  intro l
  induction l with
  | nil => intro k _ hk; cases hk
  | cons a t ih =>
    intro k hn hk
    rw [List.length_cons, List.range_succ_eq_map, List.filter_cons]
    have hgd0 : (a :: t).getD 0 d = a := rfl
    rw [List.filter_map]
    have hmap : ∀ i : Nat, ((a :: t).getD (Nat.succ i) d = k) = (t.getD i d = k) := by
      intro i; rfl
    by_cases ha : a = k
    · have hfa : decide ((a :: t).getD 0 d = k) = true := by
        rw [hgd0]; exact decide_eq_true ha
      rw [hfa]
      have hnomore :
          (List.range t.length).filter ((fun i => decide ((a :: t).getD i d = k)) ∘ Nat.succ)
            = [] := by
        rw [List.filter_eq_nil_iff]
        intro i hi
        rw [Function.comp_apply]
        intro hdec
        have hti : t.getD i d = k := of_decide_eq_true hdec
        have hilt : i < t.length := List.mem_range.mp hi
        rw [List.getD_eq_getElem t d hilt] at hti
        have : k ∈ t := hti ▸ List.getElem_mem hilt
        rw [← ha] at this
        exact (List.nodup_cons.mp hn).1 this
      rw [hnomore]
      simp [firstIdx, ha]
    · have hfa : decide ((a :: t).getD 0 d = k) = false := by
        rw [hgd0]; exact decide_eq_false ha
      rw [hfa]
      have hkt : k ∈ t := by
        cases hk with
        | head => exact absurd rfl ha
        | tail _ h => exact h
      have hcomp :
          (List.range t.length).filter ((fun i => decide ((a :: t).getD i d = k)) ∘ Nat.succ)
            = (List.range t.length).filter (fun i => decide (t.getD i d = k)) := by
        apply List.filter_congr
        intro i _
        rfl
      rw [hcomp, ih k (List.nodup_cons.mp hn).2 hkt]
      simp [firstIdx, if_neg ha]

/-- A `flatMap` whose pieces are singletons is a `map`. -/
theorem flatMap_eq_map_of_singleton {α β : Type} (f : α → List β) (g : α → β) :
    ∀ l : List α, (∀ k ∈ l, f k = [g k]) → l.flatMap f = l.map g := by
  intro l
  induction l with
  | nil => intro _; rfl
  | cons a t ih =>
    intro h
    rw [List.flatMap_cons, List.map_cons, h a (List.mem_cons_self a t),
      ih (fun k hk => h k (List.mem_cons_of_mem a hk))]
    rfl

/-- On a duplicate-free table, a successful list selection returns exactly
the cell of each requested key, in caller order. -/
theorem locList_eq_map (df : DataFrame) (keys : List Cell) (c : Cell)
    (hn : df.rows.Nodup) (hkeys : ∀ k ∈ keys, k ∈ df.rows) (hc : c ∈ df.cols) :
    locList df keys c = some (keys.map (fun k => cell df k c)) := by
  unfold locList
  rw [if_pos ⟨hkeys, hc⟩]
  congr 1
  apply flatMap_eq_map_of_singleton
  intro k hk
  rw [filter_range_eq_singleton Cell.na df.rows k hn (hkeys k hk)]
  rfl

/-- C2: a successful single-year selection on an entity-indexed table with
unique entities returns exactly one value per requested key, and the output
order is exactly the caller-supplied key order (not the table's internal
row order). -/
theorem selection_order_matches_keys (df : DataFrame) (keys : List Cell)
    (c : Cell) (out : List (Option ℚ)) (hn : df.rows.Nodup)
    (h : locList df keys c = some out) :
    out = keys.map (fun k => cell df k c) ∧ out.length = keys.length := by
  by_cases hg : (∀ k ∈ keys, k ∈ df.rows) ∧ c ∈ df.cols
  · rw [locList_eq_map df keys c hn hg.1 hg.2] at h
    have hout : out = keys.map (fun k => cell df k c) := by
      injection h with h
      exact h.symm
    exact ⟨hout, by rw [hout, List.length_map]⟩
  · unfold locList at h
    rw [if_neg hg] at h
    cases h

/-- Witness for C2: the table `dfBA` stores `"B"` before `"A"`, yet the
selection `["A", "B"]` comes back in the caller's order. -/
theorem selection_order_matches_keys_witness :
    locList dfBA [Cell.str "A", Cell.str "B"] (Cell.str "2022") =
      some [some 1, some 2] ∧
    [Cell.str "A", Cell.str "B"].map (fun k => cell dfBA k (Cell.str "2022")) =
      [some 1, some 2] := by
  have h : locList dfBA [Cell.str "A", Cell.str "B"] (Cell.str "2022") =
      some [some 1, some 2] := by decide
  have hc := selection_order_matches_keys dfBA [Cell.str "A", Cell.str "B"]
    (Cell.str "2022") [some 1, some 2] (by decide) h
  exact ⟨h, hc.1.symm⟩

/-- C3: a selection whose requested key list contains an entity absent from
the table is a lookup failure (`KeyError`, i.e. `none`), never a silently
shortened result. -/
theorem missing_key_is_lookup_failure (df : DataFrame) (keys : List Cell)
    (c k : Cell) (hk : k ∈ keys) (hm : k ∉ df.rows) :
    locList df keys c = none := by
  unfold locList
  rw [if_neg]
  intro hg
  exact hm (hg.1 k hk)

/-- Witness for C3: selecting `["A", "Z"]` from the table containing only
`"A"` fails instead of returning a 1-element result. -/
theorem missing_key_is_lookup_failure_witness :
    locList dfOnlyA [Cell.str "A", Cell.str "Z"] (Cell.str "2022") = none := by
  apply missing_key_is_lookup_failure dfOnlyA _ _ (Cell.str "Z") (by decide) (by decide)

/-! ### Rounding and percentage lemmas -/

/-- Half-even rounding moves a rational by at most `1/2`. -/
theorem rnd_abs_le (x : ℚ) : |(rnd x : ℚ) - x| ≤ 1 / 2 := by
  unfold rnd
  by_cases ht : x - x.floor = 1 / 2
  · rw [if_pos ht]
    rw [ratFloor_eq] at ht
    by_cases he : x.floor % 2 = 0
    · rw [if_pos he, ratFloor_eq]
      rw [abs_sub_comm, abs_of_nonneg (by linarith), ht]
    · rw [if_neg he, ratFloor_eq]
      push_cast
      rw [abs_of_nonneg (by linarith)]
      linarith
  · rw [if_neg ht, ratFloor_eq, ← round_eq]
    rw [abs_sub_comm]
    exact abs_sub_round x

/-- Rounding to one decimal place moves a rational by at most `1/20`. -/
theorem round1_abs_le (q : ℚ) : |round1 q - q| ≤ 1 / 20 := by
  unfold round1
  have h := rnd_abs_le (q * 10)
  have heq : (rnd (q * 10) : ℚ) / 10 - q = ((rnd (q * 10) : ℚ) - q * 10) / 10 := by
    ring
  rw [heq, abs_div, abs_of_pos (by norm_num : (0 : ℚ) < 10)]
  linarith

/-- Summed deviation bound: if `f` and `g` differ by at most `c` pointwise,
their mapped sums differ by at most `length * c`. -/
theorem abs_sum_sub_sum_le (f g : ℚ → ℚ) (c : ℚ) :
    ∀ l : List ℚ, (∀ x ∈ l, |f x - g x| ≤ c) →
      |(l.map f).sum - (l.map g).sum| ≤ l.length * c := by
  intro l
  induction l with
  | nil => intro _; simp
  | cons a t ih =>
    intro h
    rw [List.map_cons, List.map_cons, List.sum_cons, List.sum_cons]
    have h1 : |f a - g a| ≤ c := h a (List.mem_cons_self a t)
    have h2 : |(t.map f).sum - (t.map g).sum| ≤ t.length * c :=
      ih (fun x hx => h x (List.mem_cons_of_mem a hx))
    have h3 : f a + (t.map f).sum - (g a + (t.map g).sum) =
        (f a - g a) + ((t.map f).sum - (t.map g).sum) := by ring
    rw [h3]
    calc |(f a - g a) + ((t.map f).sum - (t.map g).sum)|
        ≤ |f a - g a| + |(t.map f).sum - (t.map g).sum| := abs_add _ _
      _ ≤ c + t.length * c := add_le_add h1 h2
      _ = (t.length + 1) * c := by ring
      _ = ((a :: t).length : ℚ) * c := by
          rw [List.length_cons]
          push_cast
          ring

/-- With a nonzero total, every percentage entry is finite and given by the
`value / total * 100` formula, rounded to one decimal place. -/
theorem bar_plot_percentages_of_ne (vals : List ℚ) (h0 : vals.sum ≠ 0) :
    bar_plot_percentages vals =
      vals.map (fun v => some (round1 (v / vals.sum * 100))) := by
  unfold bar_plot_percentages
  apply List.map_congr_left
  intro v _
  rw [fdiv, if_neg h0]
  rfl

/-- C4: with a nonzero total, the displayed percentage of each value is
`value / sum * 100` rounded to one decimal place; on the slice
`{A: 10, B: 20, C: 70}` this yields `{A: 10.0%, B: 20.0%, C: 70.0%}`. -/
theorem percent_of_total_formula :
    (∀ (vals : List ℚ) (i : Nat), vals.sum ≠ 0 → i < vals.length →
        (bar_plot_percentages vals).getD i none =
          some (round1 (vals.getD i 0 / vals.sum * 100))) ∧
    bar_plot_percentages [10, 20, 70] = [some 10, some 20, some 70] := by
  constructor
  · intro vals i h0 hi
    rw [bar_plot_percentages_of_ne vals h0]
    rw [List.getD_eq_getElem _ _ (by simpa using hi), List.getElem_map]
    rw [List.getD_eq_getElem vals 0 hi]
  · norm_num [bar_plot_percentages, fdiv, round1, rnd, ratFloor_eq]

/-- Witness for C4 at the slice `[10, 20, 70]`, entry `0`. -/
theorem percent_of_total_formula_witness :
    (bar_plot_percentages [10, 20, 70]).getD 0 none =
      some (round1 ([10, 20, 70].getD 0 0 / [10, 20, 70].sum * 100)) :=
  percent_of_total_formula.1 [10, 20, 70] 0 (by norm_num) (by norm_num)

/-- C5 counterexample: on the one-entity slice `[0]` the sum is zero, and
the computation neither reports `0%` nor raises anything — the unguarded
division produces a non-finite value (`0.0 / 0.0`, i.e. NaN, rendered as
`nan%` by the format string) that propagates silently. -/
theorem zero_sum_percentage_not_defined :
    ¬ bar_plot_percentages [0] = [some 0] ∧ bar_plot_percentages [0] = [none] := by
  have h : bar_plot_percentages [0] = [none] := by
    norm_num [bar_plot_percentages, fdiv]
  refine ⟨?_, h⟩
  rw [h]
  simp

/-- C5 amended: when the selected slice sums to zero, `bar_plot` performs
the division unguarded, so every annotation percentage is a non-finite
float (NaN/inf) that is silently handed to the caller — no error is raised
and no `0%` is reported. -/
theorem zero_sum_percentages_nonfinite (vals : List ℚ) (h : vals.sum = 0) :
    bar_plot_percentages vals = vals.map (fun _ => (none : Option ℚ)) := by
  unfold bar_plot_percentages
  apply List.map_congr_left
  intro v _
  rw [h, fdiv, if_pos rfl]
  rfl

/-- Witness for the amended C5 at the slice `[0]`. -/
theorem zero_sum_percentages_nonfinite_witness :
    bar_plot_percentages [0] = [0].map (fun _ => (none : Option ℚ)) :=
  zero_sum_percentages_nonfinite [0] (by norm_num)

/-- C6: for a slice with positive sum, the displayed one-decimal
percentages add up to `100` within `0.1` per value. -/
theorem percentages_sum_near_100 (vals : List ℚ) (h : 0 < vals.sum) :
    |((bar_plot_percentages vals).filterMap id).sum - 100| ≤
      vals.length * (1 / 10) := by
  have hne : vals.sum ≠ 0 := ne_of_gt h
  rw [bar_plot_percentages_of_ne vals hne]
  have hfm :
      (vals.map (fun v => some (round1 (v / vals.sum * 100)))).filterMap id =
        vals.map (fun v => round1 (v / vals.sum * 100)) := by
    rw [List.filterMap_map]
    exact congrFun (List.filterMap_eq_map (fun v => round1 (v / vals.sum * 100))) vals
  rw [hfm]
  have hsum_mul : ∀ (l : List ℚ) (c : ℚ), (l.map (fun v => v * c)).sum = l.sum * c := by
    intro l c
    induction l with
    | nil => simp
    | cons a t ih =>
      rw [List.map_cons, List.sum_cons, List.sum_cons, ih]
      ring
  have hexact : (vals.map (fun v => v / vals.sum * 100)).sum = 100 := by
    have hstep : vals.map (fun v => v / vals.sum * 100) =
        vals.map (fun v => v * (100 / vals.sum)) := by
      apply List.map_congr_left
      intro v _
      ring
    rw [hstep, hsum_mul]
    field_simp
  have hbound := abs_sum_sub_sum_le (fun v => round1 (v / vals.sum * 100))
    (fun v => v / vals.sum * 100) (1 / 20) vals
    (fun x _ => round1_abs_le (x / vals.sum * 100))
  rw [hexact] at hbound
  have hmono : (vals.length : ℚ) * (1 / 20) ≤ vals.length * (1 / 10) := by
    apply mul_le_mul_of_nonneg_left (by norm_num) (Nat.cast_nonneg _)
  linarith

/-- Witness for C6 at the slice `[10, 20, 70]`. -/
theorem percentages_sum_near_100_witness :
    |((bar_plot_percentages [10, 20, 70]).filterMap id).sum - 100| ≤
      ([10, 20, 70] : List ℚ).length * (1 / 10) :=
  percentages_sum_near_100 [10, 20, 70] (by norm_num)

/-- C7: the loader's entity-indexed view carries exactly the year columns
`"1990"`–`"2022"` (string labels, contiguous, fixed at load time); any other
raw column is discarded. -/
theorem loader_year_columns (raw : RawFrame) (dfY dfC : DataFrame)
    (h : read_world_bank_data raw = some (dfY, dfC)) :
    dfC.cols =
      (List.range (2022 - 1990 + 1)).map (fun i => Cell.str (toString (1990 + i))) ∧
    ∀ c, c ∈ dfC.cols ↔
      ∃ y : Nat, 1990 ≤ y ∧ y ≤ 2022 ∧ c = Cell.str (toString y) := by
  obtain ⟨-, -, hcols, -, -⟩ := read_eq_some raw dfY dfC h
  have h1 : dfC.cols =
      (List.range (2022 - 1990 + 1)).map (fun i => Cell.str (toString (1990 + i))) := by
    rw [hcols]
    simp [yearCells, yearStrs, List.map_map, Function.comp]
  refine ⟨h1, ?_⟩
  intro c
  rw [h1]
  constructor
  · intro hc
    rw [List.mem_map] at hc
    obtain ⟨i, hi, hci⟩ := hc
    rw [List.mem_range] at hi
    exact ⟨1990 + i, by omega, by omega, hci.symm⟩
  · intro hy
    obtain ⟨y, hy1, hy2, hyc⟩ := hy
    rw [List.mem_map]
    have hy' : 1990 + (y - 1990) = y := by omega
    refine ⟨y - 1990, ?_, ?_⟩
    · rw [List.mem_range]
      omega
    · show Cell.str (toString (1990 + (y - 1990))) = c
      rw [hyc, hy']

/-- Witness for C7 at the concrete file `rawEx` (which carries extra
columns the loader must discard). -/
theorem loader_year_columns_witness :
    exPair.2.cols =
      (List.range (2022 - 1990 + 1)).map (fun i => Cell.str (toString (1990 + i))) ∧
    (Cell.str "2022" ∈ exPair.2.cols ↔ ∃ y : Nat, 1990 ≤ y ∧ y ≤ 2022 ∧
      Cell.str "2022" = Cell.str (toString y)) :=
  have hc := loader_year_columns rawEx exPair.1 exPair.2 rfl
  ⟨hc.1, hc.2 (Cell.str "2022")⟩

/-- C8 counterexample: on `rawNA`, whose second data row has no entity name,
the loader neither drops the row nor rejects the file — the returned
entity-indexed view contains a row keyed by the missing name (`Cell.na`). -/
theorem missing_name_row_retained :
    read_world_bank_data rawNA = some (naPair.1, naPair.2) ∧
    Cell.na ∈ naPair.2.rows := by
  refine ⟨rfl, ?_⟩
  decide

/-- C8 amended: rows lacking an entity name are retained, not excluded:
each raw data row appears in the entity-indexed view, keyed by its
`"Country Name"` cell (which is `Cell.na` for such rows), and the year view
carries the same keys as its columns. -/
theorem rows_keyed_by_name_cell (raw : RawFrame) (dfY dfC : DataFrame)
    (h : read_world_bank_data raw = some (dfY, dfC)) :
    dfC.rows = raw.rows.map
      (fun r => r.getD (firstIdx raw.cols "Country Name") Cell.na) ∧
    dfY.cols = dfC.rows := by
  obtain ⟨hY, hrows, -, -, -⟩ := read_eq_some raw dfY dfC h
  refine ⟨hrows, ?_⟩
  rw [hY]
  rfl

/-- Witness for the amended C8 at `rawNA`. -/
theorem rows_keyed_by_name_cell_witness :
    naPair.2.rows = rawNA.rows.map
      (fun r => r.getD (firstIdx rawNA.cols "Country Name") Cell.na) ∧
    naPair.1.cols = naPair.2.rows :=
  rows_keyed_by_name_cell rawNA naPair.1 naPair.2 rfl

/-- C9 counterexample: `rawDup` carries the entity name `"Alpha"` twice, yet
the loader does not reject it — it returns views whose entity index is not
unique. -/
theorem duplicate_names_not_rejected :
    read_world_bank_data rawDup = some (dupPair.1, dupPair.2) ∧
    ¬ dupPair.2.rows.Nodup := by
  refine ⟨rfl, ?_⟩
  decide

/-- C9 amended: the loader performs no uniqueness (or any other) validation
beyond column presence: it succeeds exactly when the `"Country Name"` column
and every year column `"1990"`–`"2022"` are present in the raw file,
duplicates included. -/
theorem loader_accepts_iff_columns_present (raw : RawFrame) :
    (read_world_bank_data raw).isSome ↔ ∀ n ∈ all_cols_list, n ∈ raw.cols := by
  unfold read_world_bank_data selectCols
  by_cases hp : ∀ n ∈ all_cols_list, n ∈ raw.cols
  · rw [if_pos hp]
    simpa using hp
  · rw [if_neg hp]
    simpa using hp

/-- C10: the discarded `df.dropna(axis=1)` has no effect — the returned
views retain every parsed data row (even an all-missing one), with the
numeric content of the selected 1990–2022 cells kept verbatim and missing
values still absent. -/
theorem all_rows_retained (raw : RawFrame) (dfY dfC : DataFrame)
    (h : read_world_bank_data raw = some (dfY, dfC)) :
    dfC.data.length = raw.rows.length ∧
    (∀ i, i < raw.rows.length →
      dfC.data.getD i [] = yearStrs.map
        (fun n => cellNum ((raw.rows.getD i []).getD (firstIdx raw.cols n) Cell.na))) ∧
    dfY.cols.length = raw.rows.length := by
  obtain ⟨hY, hrows, -, hdata, -⟩ := read_eq_some raw dfY dfC h
  refine ⟨by rw [hdata]; simp, ?_, ?_⟩
  · intro i hi
    rw [hdata]
    rw [List.getD_eq_getElem _ [] (by simpa using hi), List.getElem_map]
    rw [List.getD_eq_getElem raw.rows [] hi]
  · have hYc : dfY.cols = dfC.rows := by rw [hY]; rfl
    rw [hYc, hrows]
    simp

/-- Witness for C10 at `rawNA`, whose second row has every yearly value
missing and is still retained. -/
theorem all_rows_retained_witness :
    naPair.2.data.getD 1 [] = yearStrs.map
      (fun n => cellNum ((rawNA.rows.getD 1 []).getD (firstIdx rawNA.cols n) Cell.na)) ∧
    naPair.2.data.length = rawNA.rows.length :=
  have hc := all_rows_retained rawNA naPair.1 naPair.2 rfl
  ⟨hc.2.1 1 (by decide), hc.1⟩
